import Mathlib

/-!
Verification of the SSE bridge (`sse_bridge.py`): a shallow embedding of the
`McpSseBridge` class and its HTTP handlers, together with proofs about the
child-process exchange, the broadcast fan-out, message classification, error
handling, lifecycle, and the liveness probe.
-/

namespace SseBridge

/-- JSON values, as produced by `json.loads` on a decodable line. -/
inductive JVal where
  | null
  | bool (b : Bool)
  | num (n : Int)
  | str (s : String)
  | arr (xs : List JVal)
  | obj (fs : List (String × JVal))

/-- A parsed protocol message: a JSON object, i.e. a key/value association
list (what `json.loads` yields for an object payload). -/
abbrev Msg := List (String × JVal)

/-- Membership test for a key, the embedding of Python's `'k' in message`. -/
def Msg.hasKey (m : Msg) (k : String) : Bool :=
  m.any (fun p => p.1 == k)

/-- Lookup of a key, the embedding of Python's `message.get(k)` (`none`
models Python `None` for an absent key). -/
def Msg.get (m : Msg) (k : String) : Option JVal :=
  match m.find? (fun p => p.1 == k) with
  | some p => some p.2
  | none => none

mutual
/-- Serialization of a JSON value, the model of `json.dumps`. -/
def JVal.render : JVal → String
  | .null => "null"
  | .bool true => "true"
  | .bool false => "false"
  | .num n => toString n
  | .str s => "\"" ++ s ++ "\""
  | .arr xs => "[" ++ JVal.renderList xs ++ "]"
  | .obj fs => "\x7b" ++ JVal.renderFields fs ++ "\x7d"

/-- Serialization of a JSON array's elements. -/
def JVal.renderList : List JVal → String
  | [] => ""
  | [x] => JVal.render x
  | x :: y :: xs => JVal.render x ++ ", " ++ JVal.renderList (y :: xs)

/-- Serialization of a JSON object's fields. -/
def JVal.renderFields : List (String × JVal) → String
  | [] => ""
  | [p] => "\"" ++ p.1 ++ "\": " ++ JVal.render p.2
  | p :: q :: ps => "\"" ++ p.1 ++ "\": " ++ JVal.render p.2 ++ ", " ++ JVal.renderFields (q :: ps)
end

/-- `json.dumps(message)` for a protocol message (an object). -/
def dumps (m : Msg) : String :=
  JVal.render (JVal.obj m)

/-- Mode a file sink was opened with: `open(path, 'w')` versus `open(path, 'a')`. -/
inductive FileMode where
  | write
  | append
deriving Repr, DecidableEq

/-- The file sink the child's stderr is redirected to. -/
structure StderrSink where
  path : String
  mode : FileMode
deriving Repr, DecidableEq

/-- A spawned child process (`subprocess.Popen` handle), as the bridge
observes it.  `stdinWritten` is the transcript of everything written to the
child's stdin.  `stdoutLines` is the remaining stdout stream: one entry per
line, `some m` when `json.loads` of the stripped line yields `m`, `none`
when the line is non-JSON (or blank) and gets skipped; the end of the list
is end-of-stream (`readline` returns empty bytes).  `alive` is the
non-blocking `poll() is None` predicate.  `exitsOnTerm` records whether the
process exits within the graceful-wait bound after `terminate()`. -/
structure ChildProc where
  stdinWritten : List String
  stdoutLines : List (Option Msg)
  alive : Bool
  exitsOnTerm : Bool

/-- One connected SSE client: its `asyncio.Queue`.  `qid` is the queue's
identity; `closed` makes `put` raise, modelling the exception branch of the
broadcast loop; `items` is the queued serialized messages, in order. -/
structure ClientQueue where
  qid : Nat
  closed : Bool
  items : List String

/-- The `McpSseBridge` object: the binary path, the optional child-process
handle, and the set of connected client queues (modelled as a list; the
source's `set` iteration order is arbitrary, the list fixes one). -/
structure McpSseBridge where
  binary_path : String
  process : Option ChildProc
  clients : List ClientQueue

/-- An environment: a mapping from variable names to values. -/
abbrev Env := List (String × String)

/-- Assignment `env[k] = v` on a dict: overwrite the key if present,
otherwise add it. -/
def Env.set (e : Env) (k v : String) : Env :=
  if e.any (fun p => p.1 == k) then
    e.map (fun p => if p.1 == k then (k, v) else p)
  else
    e ++ [(k, v)]

/-- What `subprocess.Popen` was called with in `start_mcp_server`. -/
structure SpawnConfig where
  argv : List String
  stdinPipe : Bool
  stdoutPipe : Bool
  bufsize : Nat
  textMode : Bool
  env : Env
  stderrSink : StderrSink

/-- The runtime behaviour of the child that `start_mcp_server` spawns: the
stdout line stream it will produce, and whether it reacts to a graceful
`terminate()` within the wait bound.  These are facts about the external
executable, supplied as a parameter of the spawn. -/
structure ChildBehavior where
  stdoutLines : List (Option Msg)
  exitsOnTerm : Bool

/-- `McpSseBridge.start_mcp_server`: copies `os.environ`, sets
`RUST_LOG=debug` on the copy, opens `/tmp/mcp-server-stderr.log` with mode
`'w'` as the stderr sink, and spawns `[self.binary_path]` with stdin and
stdout pipes, `bufsize=0`, byte mode (no `text=True`), and that
environment; stores the fresh handle in `self.process`. -/
def McpSseBridge.start_mcp_server (b : McpSseBridge) (osEnviron : Env)
    (beh : ChildBehavior) : McpSseBridge × SpawnConfig :=
  let env := Env.set osEnviron "RUST_LOG" "debug"
  let stderr_log : StderrSink := { path := "/tmp/mcp-server-stderr.log", mode := FileMode.write }
  let cfg : SpawnConfig :=
    { argv := [b.binary_path]
      stdinPipe := true
      stdoutPipe := true
      bufsize := 0
      textMode := false
      env := env
      stderrSink := stderr_log }
  let p : ChildProc :=
    { stdinWritten := []
      stdoutLines := beh.stdoutLines
      alive := true
      exitsOnTerm := beh.exitsOnTerm }
  ({ b with process := some p }, cfg)

/-- The signals `stop_mcp_server` ended up sending, and the wait bound it
passed to `wait`. -/
structure StopActions where
  terminateCalled : Bool
  killCalled : Bool
  waitTimeout : Option Nat
deriving Repr, DecidableEq

/-- `McpSseBridge.stop_mcp_server`: if a process handle exists, call
`terminate()`, then `wait(timeout=5)`; `subprocess.TimeoutExpired` (the
process was still running and did not exit within the bound) is caught and
answered with `kill()`.  If no handle exists, do nothing.  The handle is
not cleared afterwards.  The `Except` result records that no exception
escapes the method. -/
def McpSseBridge.stop_mcp_server (b : McpSseBridge) :
    Except String (McpSseBridge × StopActions) :=
  match b.process with
  | none => Except.ok (b, { terminateCalled := false, killCalled := false, waitTimeout := none })
  | some p =>
      let timedOut := p.alive && !p.exitsOnTerm
      let p' : ChildProc := { p with alive := false }
      Except.ok ({ b with process := some p' },
        { terminateCalled := true, killCalled := timedOut, waitTimeout := some 5 })

/-- The two `RuntimeError`s `send_to_mcp` can raise. -/
inductive BridgeError where
  | notStarted
  | childClosed
deriving Repr, DecidableEq

/-- `str(e)` for a `BridgeError`: the message the `RuntimeError` carries. -/
def BridgeError.descr : BridgeError → String
  | .notStarted => "MCP server not started"
  | .childClosed => "MCP server closed connection"

/-- The read loop of `send_to_mcp`: scan the stdout stream one line at a
time, skipping lines that fail to parse as JSON, until a parsed message is
found (returned with the rest of the stream) or the stream ends (`none`). -/
def readLoop : List (Option Msg) → Option (Msg × List (Option Msg))
  | [] => none
  | some m :: rest => some (m, rest)
  | none :: rest => readLoop rest

/-- `McpSseBridge.send_to_mcp`: raise `RuntimeError("MCP server not
started")` if there is no process handle; otherwise write
`json.dumps(message) + '\n'` to the child's stdin and flush, then run the
read loop on its stdout; end-of-stream raises `RuntimeError("MCP server
closed connection")`.  Returns the outcome together with the bridge state
after the call (the write and the consumed stdout lines persist even when
the read loop fails). -/
def McpSseBridge.send_to_mcp (b : McpSseBridge) (message : Msg) :
    Except BridgeError Msg × McpSseBridge :=
  match b.process with
  | none => (Except.error BridgeError.notStarted, b)
  | some p =>
      let message_json := dumps message ++ "\n"
      let p1 : ChildProc := { p with stdinWritten := p.stdinWritten ++ [message_json] }
      match readLoop p1.stdoutLines with
      | some (response, rest) =>
          (Except.ok response, { b with process := some { p1 with stdoutLines := rest } })
      | none =>
          (Except.error BridgeError.childClosed, { b with process := some { p1 with stdoutLines := [] } })

/-- `queue.put(s)` on a client queue: appends if the queue is usable,
fails (the `except` branch of the broadcast loop) if the queue is closed.
Returns the updated queue and whether the enqueue succeeded. -/
def ClientQueue.put (q : ClientQueue) (s : String) : ClientQueue × Bool :=
  if q.closed then (q, false) else ({ q with items := q.items ++ [s] }, true)

/-- `McpSseBridge.broadcast_to_clients`: serialize the message once, then
sweep the current membership, attempting one enqueue per client queue and
collecting the failed ones; only after the sweep is complete are the failed
queues removed from `self.clients`.  Returns the updated bridge and the
attempt transcript (queue identity, success flag), in iteration order. -/
def McpSseBridge.broadcast_to_clients (b : McpSseBridge) (message : Msg) :
    McpSseBridge × List (Nat × Bool) :=
  let message_json := dumps message
  let swept := b.clients.map (fun q => q.put message_json)
  let survivors := (swept.filter (fun r => r.2)).map (fun r => r.1)
  ({ b with clients := survivors }, swept.map (fun r => (r.1.qid, r.2)))

/-- Body of an HTTP response: `web.Response(status=200)` has an empty body,
`web.json_response(m)` carries the object `m`. -/
inductive HttpBody where
  | empty
  | json (m : Msg)

/-- An HTTP response as the handlers build it. -/
structure HttpResponse where
  status : Nat
  body : HttpBody

/-- The text `str(e)` carries when `await request.json()` fails on a
malformed payload (the JSON decode exception's description). -/
def parseErrorDescr : String :=
  "malformed JSON payload"

/-- The JSON-RPC error envelope the `except` branch of `message_handler`
constructs: generic internal-error code `-32603`, the failure's
description, and the correlation identifier when one is known. -/
def error_envelope (idv : JVal) (descr : String) : Msg :=
  [("jsonrpc", JVal.str "2.0"),
   ("id", idv),
   ("error", JVal.obj [("code", JVal.num (-32603)), ("message", JVal.str descr)])]

/-- `message_handler`: the body of the `POST /message` handler.  The input
is the result of `await request.json()`: `none` when the payload is not
well-formed JSON (the parse raises, `message` is never bound, and the
`except` branch answers 500 with a null id).  For a parsed message: if the
key `'id'` is absent it is a notification, acknowledged with an empty 200
and nothing else happens; otherwise the message goes through `send_to_mcp`,
a success is broadcast to every client queue and returned as a 200 JSON
response, and a failure is answered 500 with the envelope carrying
`message.get('id')` and `str(e)`. -/
def message_handler (b : McpSseBridge) (payload : Option Msg) :
    HttpResponse × McpSseBridge :=
  match payload with
  | none =>
      ({ status := 500, body := HttpBody.json (error_envelope JVal.null parseErrorDescr) }, b)
  | some message =>
      if Msg.hasKey message "id" = false then
        ({ status := 200, body := HttpBody.empty }, b)
      else
        match b.send_to_mcp message with
        | (Except.ok response, b1) =>
            let b2 := (b1.broadcast_to_clients response).1
            ({ status := 200, body := HttpBody.json response }, b2)
        | (Except.error e, b1) =>
            let idv := (Msg.get message "id").getD JVal.null
            ({ status := 500, body := HttpBody.json (error_envelope idv e.descr) }, b1)

/-- `health_handler`: the `GET /health` handler.  Healthy (200) exactly
when the global bridge exists, it holds a process handle, and
`process.poll() is None`; otherwise unhealthy (503).  It only reads the
bridge, so it is a pure function of it. -/
def health_handler (bridge : Option McpSseBridge) : HttpResponse :=
  match bridge with
  | some b =>
      match b.process with
      | some p =>
          if p.alive then
            { status := 200, body := HttpBody.json [("status", JVal.str "healthy")] }
          else
            { status := 503, body := HttpBody.json [("status", JVal.str "unhealthy")] }
      | none => { status := 503, body := HttpBody.json [("status", JVal.str "unhealthy")] }
  | none => { status := 503, body := HttpBody.json [("status", JVal.str "unhealthy")] }

/-! ### Interleaving model of concurrent `send_to_mcp` calls

`send_to_mcp` performs a write to the child's stdin followed by a read from
its stdout, with no lock acquired anywhere in its body, so its micro-steps
may interleave freely with a concurrent call's when the two calls overlap.
The model below runs several exchanges against an echo child (one that
answers each written request with a reply carrying the same correlation
identifier, in write order) under an explicit schedule, and observes which
reply each exchange's read picks up. -/

/-- The micro-operations of one `send_to_mcp` call, in program order: the
stdin write (+flush), then the stdout read.  The source body contains no
lock acquisition or release around them. -/
inductive MicroOp where
  | write
  | read
deriving Repr, DecidableEq

/-- The micro-op decomposition of `send_to_mcp`: write then read, and
nothing else guarding them. -/
def send_to_mcp_ops : List MicroOp :=
  [MicroOp.write, MicroOp.read]

/-- One in-flight `send_to_mcp` call: its request's correlation identifier,
the micro-ops still to run, and the reply its read obtained, if any. -/
structure ExchangeTask where
  reqId : Int
  remaining : List MicroOp
  reply : Option Int

/-- A fresh exchange task for a request with identifier `n`. -/
def ExchangeTask.mk0 (n : Int) : ExchangeTask :=
  { reqId := n, remaining := send_to_mcp_ops, reply := none }

/-- Shared state of the interleaving: the tasks and the child's stdout
buffer.  The echo child appends, synchronously with each write, a reply
carrying the written request's identifier; `stdoutBuf` lists the reply
identifiers not yet consumed by a read, in emission order. -/
structure ConcState where
  tasks : List ExchangeTask
  stdoutBuf : List Int

/-- Run one micro-step of task `i`: a write emits the echo child's reply
for that task's request onto the shared stdout; a read consumes the first
buffered reply — whichever request produced it — as this task's answer.
A task with no step left, or a read with an empty buffer, does nothing. -/
def stepTask (s : ConcState) (i : Nat) : ConcState :=
  match s.tasks.get? i with
  | none => s
  | some t =>
      match t.remaining with
      | [] => s
      | MicroOp.write :: rest =>
          { s with
            tasks := s.tasks.set i { t with remaining := rest }
            stdoutBuf := s.stdoutBuf ++ [t.reqId] }
      | MicroOp.read :: rest =>
          match s.stdoutBuf with
          | [] => s
          | r :: rs =>
              { s with
                tasks := s.tasks.set i { t with remaining := rest, reply := some r }
                stdoutBuf := rs }

/-- Run a schedule: a list of task indices, each performing its next
micro-step in turn.  Every schedule is admissible because the source takes
no lock around the write-then-read sequence. -/
def runSchedule (s : ConcState) : List Nat → ConcState
  | [] => s
  | i :: sched => runSchedule (stepTask s i) sched

/-- Two concurrent exchanges, for requests with identifiers 1 and 2. -/
def twoExchanges : ConcState :=
  { tasks := [ExchangeTask.mk0 1, ExchangeTask.mk0 2], stdoutBuf := [] }

/-- The reply task `i` ended up with after running `sched`. -/
def replyOf (s : ConcState) (sched : List Nat) (i : Nat) : Option Int :=
  match (runSchedule s sched).tasks.get? i with
  | some t => t.reply
  | none => none

/-! ### Concrete fixtures used by the witness theorems -/

/-- A request message: `{"jsonrpc": "2.0", "id": 1, "method": "ping"}`. -/
def msgPing : Msg :=
  [("jsonrpc", JVal.str "2.0"), ("id", JVal.num 1), ("method", JVal.str "ping")]

/-- A notification: same shape but with no `id` key at all. -/
def msgNotify : Msg :=
  [("jsonrpc", JVal.str "2.0"), ("method", JVal.str "ping")]

/-- A message carrying the key `id` with the JSON value `null`. -/
def msgIdNull : Msg :=
  [("jsonrpc", JVal.str "2.0"), ("id", JVal.null), ("method", JVal.str "ping")]

/-- The echo reply: `{"jsonrpc": "2.0", "id": 1, "result": "pong"}`. -/
def replyPong : Msg :=
  [("jsonrpc", JVal.str "2.0"), ("id", JVal.num 1), ("result", JVal.str "pong")]

/-- A live child whose stdout holds one diagnostic line and then the pong
reply, and which ignores graceful termination. -/
def sampleProc : ChildProc :=
  { stdinWritten := []
    stdoutLines := [none, some replyPong]
    alive := true
    exitsOnTerm := false }

/-- A bridge with the sample child started and no connected clients. -/
def sampleBridge : McpSseBridge :=
  { binary_path := "./target/release/smart-diff-mcp"
    process := some sampleProc
    clients := [] }

/-- A bridge on which `start_mcp_server` has never run. -/
def sampleBridgeNoProc : McpSseBridge :=
  { binary_path := "./target/release/smart-diff-mcp"
    process := none
    clients := [] }

/-- A caller environment for the spawn fixtures. -/
def envSample : Env :=
  [("PATH", "/usr/bin")]

/-- A child behaviour for the spawn fixtures. -/
def behSample : ChildBehavior :=
  { stdoutLines := [], exitsOnTerm := true }

/-! ### Supporting lemmas -/

/-- The read loop skips every undecodable line in front of the first
decodable one and returns that message with the rest of the stream. -/
theorem readLoop_skip (pre : List (Option Msg)) (m : Msg) (rest : List (Option Msg))
    (hpre : ∀ x ∈ pre, x = none) :
    readLoop (pre ++ (some m :: rest)) = some (m, rest) := by
  induction pre with
  | nil => rfl
  | cons x xs ih =>
      have hx : x = none := hpre x (List.mem_cons_self x xs)
      subst hx
      simpa [readLoop] using ih (fun y hy => hpre y (List.mem_cons_of_mem _ hy))

/-- The read loop reaches the end of the stream when no line decodes. -/
theorem readLoop_exhausted (lines : List (Option Msg)) (h : ∀ x ∈ lines, x = none) :
    readLoop lines = none := by
  induction lines with
  | nil => rfl
  | cons x xs ih =>
      have hx : x = none := h x (List.mem_cons_self x xs)
      subst hx
      simpa [readLoop] using ih (fun y hy => h y (List.mem_cons_of_mem _ hy))

/-- `send_to_mcp` never touches the client set. -/
theorem send_to_mcp_clients_unchanged (b : McpSseBridge) (message : Msg) :
    ((b.send_to_mcp message).2).clients = b.clients := by
  unfold McpSseBridge.send_to_mcp
  rcases b.process with _ | p
  · rfl
  · simp only []
    rcases h : readLoop ({ p with stdinWritten := p.stdinWritten ++ [dumps message ++ "\n"]} : ChildProc).stdoutLines with _ | ⟨m, rest⟩ <;> simp [h]

/-- After `send_to_mcp` on a started bridge, the child's stdin transcript
has exactly the encoded line appended, whatever the read loop did. -/
theorem send_to_mcp_stdin_appended (b : McpSseBridge) (p : ChildProc) (message : Msg)
    (hp : b.process = some p) :
    ∃ p1, ((b.send_to_mcp message).2).process = some p1
      ∧ p1.stdinWritten = p.stdinWritten ++ [dumps message ++ "\n"] := by
  unfold McpSseBridge.send_to_mcp
  rw [hp]
  simp only []
  rcases h : readLoop ({ p with stdinWritten := p.stdinWritten ++ [dumps message ++ "\n"]} : ChildProc).stdoutLines with _ | ⟨m, rest⟩ <;>
    simp [h]

/-- `broadcast_to_clients` never touches the process handle. -/
theorem broadcast_to_clients_process_unchanged (b : McpSseBridge) (message : Msg) :
    ((b.broadcast_to_clients message).1).process = b.process :=
  rfl

/-- A key/value pair in the object makes `hasKey` true for that key. -/
theorem Msg.hasKey_of_mem (m : Msg) (k : String) (v : JVal) (h : (k, v) ∈ m) :
    Msg.hasKey m k = true := by
  unfold Msg.hasKey
  exact List.any_eq_true.2 ⟨(k, v), h, by simp⟩

/-! ### Claim theorems -/

/-- Claim C10: calling `send_to_mcp` before the child has been started (no
process handle) fails immediately with the not-started error, writes
nothing to any stream, and leaves the whole bridge state unchanged. -/
theorem send_to_mcp_not_started (b : McpSseBridge) (message : Msg)
    (h : b.process = none) :
    b.send_to_mcp message = (Except.error BridgeError.notStarted, b) := by
  unfold McpSseBridge.send_to_mcp
  rw [h]

/-- Witness for C10 at a concrete unstarted bridge and a concrete message. -/
theorem send_to_mcp_not_started_witness :
    sampleBridgeNoProc.send_to_mcp msgPing
      = (Except.error BridgeError.notStarted, sampleBridgeNoProc) :=
  send_to_mcp_not_started sampleBridgeNoProc msgPing rfl

/-- Claim C2: on a started bridge, `send_to_mcp` appends exactly one encoded
JSON line to the child's stdin, then returns the first stdout line that
decodes, discarding every undecodable line before it; when the stdout
stream is exhausted without a decodable line, it fails with the
child-closed error instead of returning a message. -/
theorem send_to_mcp_exchange (b : McpSseBridge) (p : ChildProc) (message : Msg)
    (hp : b.process = some p) :
    (∀ pre response rest, p.stdoutLines = pre ++ (some response :: rest) →
        (∀ x ∈ pre, x = none) →
        b.send_to_mcp message =
          (Except.ok response,
           { b with process := some { p with
               stdinWritten := p.stdinWritten ++ [dumps message ++ "\n"]
               stdoutLines := rest } }))
    ∧ ((∀ x ∈ p.stdoutLines, x = none) →
        b.send_to_mcp message =
          (Except.error BridgeError.childClosed,
           { b with process := some { p with
               stdinWritten := p.stdinWritten ++ [dumps message ++ "\n"]
               stdoutLines := [] } })) := by
  constructor
  · intro pre response rest hdec hpre
    unfold McpSseBridge.send_to_mcp
    rw [hp]
    simp only []
    rw [show ({ p with stdinWritten := p.stdinWritten ++ [dumps message ++ "\n"]} : ChildProc).stdoutLines = p.stdoutLines from rfl,
        hdec, readLoop_skip pre response rest hpre]
  · intro hall
    unfold McpSseBridge.send_to_mcp
    rw [hp]
    simp only []
    rw [show ({ p with stdinWritten := p.stdinWritten ++ [dumps message ++ "\n"]} : ChildProc).stdoutLines = p.stdoutLines from rfl,
        readLoop_exhausted p.stdoutLines hall]

/-- Witness for C2: against the sample child (one diagnostic line, then the
pong reply), the exchange returns the pong and consumes the stream. -/
theorem send_to_mcp_exchange_witness :
    sampleBridge.send_to_mcp msgPing
      = (Except.ok replyPong,
         { sampleBridge with process := some { sampleProc with
             stdinWritten := [dumps msgPing ++ "\n"]
             stdoutLines := [] } }) := by
  have h := (send_to_mcp_exchange sampleBridge sampleProc msgPing rfl).1
    [none] replyPong [] rfl (by intro x hx; simpa using hx)
  simpa [sampleProc] using h

/-- Claim C3: a broadcast serializes the message once and makes exactly one
enqueue attempt per member of the membership at call time, in iteration
order (the attempt transcript lists every member, so a failing member never
prevents the attempts on the members after it); every non-failing member's
queue gets exactly the serialized message appended, independently of the
other members; the failing members are removed from the membership only
after the sweep, and nothing else in the bridge changes. -/
theorem broadcast_to_clients_isolated (b : McpSseBridge) (message : Msg) :
    (b.broadcast_to_clients message).2 = b.clients.map (fun q => (q.qid, !q.closed))
    ∧ ((b.broadcast_to_clients message).1).clients
        = (b.clients.filter (fun q => !q.closed)).map
            (fun q => { q with items := q.items ++ [dumps message] })
    ∧ ((b.broadcast_to_clients message).1).process = b.process
    ∧ ((b.broadcast_to_clients message).1).binary_path = b.binary_path := by
  refine ⟨?_, ?_, rfl, rfl⟩
  · unfold McpSseBridge.broadcast_to_clients
    simp only [List.map_map]
    induction b.clients with
    | nil => rfl
    | cons q qs ih =>
        rcases hq : q.closed <;>
          simp_all [ClientQueue.put, hq]
  · unfold McpSseBridge.broadcast_to_clients
    simp only []
    induction b.clients with
    | nil => rfl
    | cons q qs ih =>
        rcases hq : q.closed <;>
          simp_all [ClientQueue.put, hq]

/-- Claim C4: a well-formed inbound message without the `id` key is a
notification: the handler answers an empty 200 immediately and the bridge
state is returned untouched — nothing is written to the child and no client
queue receives anything. -/
theorem message_handler_notification (b : McpSseBridge) (message : Msg)
    (h : Msg.hasKey message "id" = false) :
    message_handler b (some message) = ({ status := 200, body := HttpBody.empty }, b) := by
  simp [message_handler, h]

/-- Witness for C4 at a concrete notification message. -/
theorem message_handler_notification_witness :
    message_handler sampleBridge (some msgNotify)
      = ({ status := 200, body := HttpBody.empty }, sampleBridge) :=
  message_handler_notification sampleBridge msgNotify rfl

/-- Claim C5: a payload that fails to parse is answered 500 with the error
envelope (null id, internal-error code, the parse failure's description)
and the bridge is untouched — no child interaction; and when the parsed
message goes to the exchange and the exchange fails, the caller gets a 500
envelope carrying the internal-error code, the failure's description and
the message's own correlation identifier, and the client queues see no
broadcast. -/
theorem message_handler_failure_envelope (b : McpSseBridge) (message : Msg) :
    (message_handler b none
        = ({ status := 500, body := HttpBody.json (error_envelope JVal.null parseErrorDescr) }, b))
    ∧ (Msg.hasKey message "id" = true →
        ∀ e b1, b.send_to_mcp message = (Except.error e, b1) →
          message_handler b (some message)
            = ({ status := 500,
                 body := HttpBody.json
                   (error_envelope ((Msg.get message "id").getD JVal.null) e.descr) }, b1)
          ∧ b1.clients = b.clients) := by
  refine ⟨rfl, ?_⟩
  intro hk e b1 hsend
  constructor
  · simp [message_handler, hk, hsend]
  · have := send_to_mcp_clients_unchanged b message
    rw [hsend] at this
    exact this

/-- Witness for C5: submitting the ping request on an unstarted bridge makes
the exchange fail, and the caller gets the 500 envelope with the id and the
not-started description, while the (empty) client set is untouched. -/
theorem message_handler_failure_envelope_witness :
    message_handler sampleBridgeNoProc (some msgPing)
      = ({ status := 500,
           body := HttpBody.json (error_envelope (JVal.num 1) (BridgeError.descr BridgeError.notStarted)) },
         sampleBridgeNoProc)
    ∧ sampleBridgeNoProc.clients = sampleBridgeNoProc.clients := by
  have h := (message_handler_failure_envelope sampleBridgeNoProc msgPing).2 rfl
    BridgeError.notStarted sampleBridgeNoProc rfl
  simpa [msgPing, Msg.get] using h

/-- Claim C6: `stop_mcp_server` with no handle is a no-op that sends no
signal; with a handle it calls `terminate()`, waits with the bound 5, and
calls `kill()` exactly when the process was running and outlives the
graceful wait; a second stop right after also returns normally and sends no
kill.  No call faults (every outcome is `Except.ok`). -/
theorem stop_mcp_server_lifecycle (b : McpSseBridge) :
    (b.process = none →
        b.stop_mcp_server
          = Except.ok (b, { terminateCalled := false, killCalled := false, waitTimeout := none }))
    ∧ (∀ p, b.process = some p →
        ∃ b', b.stop_mcp_server
            = Except.ok (b', { terminateCalled := true
                               killCalled := p.alive && !p.exitsOnTerm
                               waitTimeout := some 5 })
          ∧ ((p.alive && !p.exitsOnTerm) = true ↔ (p.alive = true ∧ p.exitsOnTerm = false))
          ∧ ∃ b'', b'.stop_mcp_server
              = Except.ok (b'', { terminateCalled := true, killCalled := false, waitTimeout := some 5 })) := by
  constructor
  · intro h
    unfold McpSseBridge.stop_mcp_server
    rw [h]
  · intro p hp
    refine ⟨{ b with process := some { p with alive := false } }, ?_, ?_, ?_⟩
    · unfold McpSseBridge.stop_mcp_server
      rw [hp]
    · rcases p.alive <;> rcases hterm : p.exitsOnTerm <;> simp [hterm]
    · exact ⟨{ b with process := some { p with alive := false } }, rfl⟩

/-- Witness for C6: stopping the sample bridge (live child ignoring
graceful termination) escalates to kill, and an immediate second stop
returns normally without a kill. -/
theorem stop_mcp_server_lifecycle_witness :
    ∃ b', sampleBridge.stop_mcp_server
        = Except.ok (b', { terminateCalled := true, killCalled := true, waitTimeout := some 5 })
      ∧ ∃ b'', b'.stop_mcp_server
          = Except.ok (b'', { terminateCalled := true, killCalled := false, waitTimeout := some 5 }) := by
  obtain ⟨b', heq, -, b'', heq2⟩ := (stop_mcp_server_lifecycle sampleBridge).2 sampleProc rfl
  exact ⟨b', heq, b'', heq2⟩

/-- Claim C7 (counterexample to the stated claim): the stderr sink is opened
with mode `'w'`, not in append mode, so the diagnostic stream does not go
to an append-only sink. -/
theorem start_mcp_server_sink_not_append :
    ((sampleBridgeNoProc.start_mcp_server envSample behSample).2).stderrSink.mode
      ≠ FileMode.append := by
  intro h
  exact FileMode.noConfusion h

/-- Claim C7 (amended): `start_mcp_server` spawns `[binary_path]` with a
fresh environment layering `RUST_LOG=debug` over a copy of the caller's
environment, byte-oriented (`text` not requested) unbuffered (`bufsize=0`)
stdin and stdout pipes to the parent, and the child's stderr redirected to
the fixed file sink `/tmp/mcp-server-stderr.log` — separate from the
structured stdout pipe but opened in truncating write mode, not append
mode; the fresh handle becomes the bridge's process. -/
theorem start_mcp_server_spawn (b : McpSseBridge) (osEnviron : Env) (beh : ChildBehavior) :
    (b.start_mcp_server osEnviron beh).2
      = { argv := [b.binary_path]
          stdinPipe := true
          stdoutPipe := true
          bufsize := 0
          textMode := false
          env := Env.set osEnviron "RUST_LOG" "debug"
          stderrSink := { path := "/tmp/mcp-server-stderr.log", mode := FileMode.write } }
    ∧ (b.start_mcp_server osEnviron beh).1
        = { b with process := some { stdinWritten := []
                                     stdoutLines := beh.stdoutLines
                                     alive := true
                                     exitsOnTerm := beh.exitsOnTerm } } :=
  ⟨rfl, rfl⟩

/-- The spec's liveness predicate (§4.6): a Child Process Handle exists and
`isAlive()` is true. -/
def healthySpec : Option McpSseBridge → Bool
  | some b =>
      match b.process with
      | some p => p.alive
      | none => false
  | none => false

/-- Claim C8: the health endpoint answers 200 with the healthy body exactly
when the bridge exists, holds a process handle, and the non-blocking poll
says the child is running; otherwise 503 with the unhealthy body.  The
handler is a pure function of the bridge (it returns no updated state), so
the check has no side effects. -/
theorem health_handler_liveness (bridge : Option McpSseBridge) :
    health_handler bridge
      = (if healthySpec bridge
         then { status := 200, body := HttpBody.json [("status", JVal.str "healthy")] }
         else { status := 503, body := HttpBody.json [("status", JVal.str "unhealthy")] })
    ∧ (healthySpec bridge = true
        ↔ ∃ b p, bridge = some b ∧ b.process = some p ∧ p.alive = true) := by
  constructor
  · rcases bridge with _ | b
    · rfl
    · rcases hb : b.process with _ | p
      · simp [health_handler, healthySpec, hb]
      · rcases ha : p.alive <;> simp [health_handler, healthySpec, hb, ha]
  · constructor
    · intro h
      rcases bridge with _ | b
      · exact absurd h (by simp [healthySpec])
      · rcases hb : b.process with _ | p
        · simp [healthySpec, hb] at h
        · exact ⟨b, p, rfl, hb, by simpa [healthySpec, hb] using h⟩
    · rintro ⟨b, p, rfl, hb, ha⟩
      simp [healthySpec, hb, ha]

/-- Claim C9: classification looks only at the presence of the key `id`: a
message that carries `id` with value `null` goes down the request path — it
is relayed to the child's stdin and the answer is never the empty
notification acknowledgment — while only the complete absence of the key
produces the notification acknowledgment. -/
theorem message_handler_classification_by_presence (b : McpSseBridge) (p : ChildProc)
    (hp : b.process = some p) :
    (∀ message : Msg, ("id", JVal.null) ∈ message →
        ∃ r b1 p1, message_handler b (some message) = (r, b1)
          ∧ r.body ≠ HttpBody.empty
          ∧ b1.process = some p1
          ∧ p1.stdinWritten = p.stdinWritten ++ [dumps message ++ "\n"])
    ∧ (∀ message : Msg, Msg.hasKey message "id" = false →
        message_handler b (some message) = ({ status := 200, body := HttpBody.empty }, b)) := by
  constructor
  · intro message hmem
    have hk : Msg.hasKey message "id" = true := Msg.hasKey_of_mem message "id" JVal.null hmem
    obtain ⟨p1, hproc, hstdin⟩ := send_to_mcp_stdin_appended b p message hp
    rcases hsend : b.send_to_mcp message with ⟨res, b1⟩
    rw [hsend] at hproc
    rcases res with e | response
    · refine ⟨{ status := 500,
                body := HttpBody.json
                  (error_envelope ((Msg.get message "id").getD JVal.null) e.descr) },
              b1, p1, ?_, ?_, hproc, hstdin⟩
      · simp [message_handler, hk, hsend]
      · intro h
        exact HttpBody.noConfusion h
    · refine ⟨{ status := 200, body := HttpBody.json response },
              (b1.broadcast_to_clients response).1, p1, ?_, ?_, ?_, hstdin⟩
      · simp [message_handler, hk, hsend]
      · intro h
        exact HttpBody.noConfusion h
      · rw [broadcast_to_clients_process_unchanged]
        exact hproc
  · intro message hk
    simp [message_handler, hk]

/-- Witness for C9: the message with `"id": null` on the sample bridge is
relayed to the child and not answered with the empty acknowledgment. -/
theorem message_handler_classification_by_presence_witness :
    ∃ r b1 p1, message_handler sampleBridge (some msgIdNull) = (r, b1)
      ∧ r.body ≠ HttpBody.empty
      ∧ b1.process = some p1
      ∧ p1.stdinWritten = sampleProc.stdinWritten ++ [dumps msgIdNull ++ "\n"] :=
  (message_handler_classification_by_presence sampleBridge sampleProc rfl).1 msgIdNull
    (by simp [msgIdNull])

/-- Claim C1 (the race the source leaves open): `send_to_mcp`'s body is the
bare write-then-read pair with no lock acquisition, so the interleaving
write(1), write(2), read-by-task-2, read-by-task-1 of two overlapping calls
is admissible; under it, the task that sent request 2 picks up the echo
child's reply to request 1 — cross-pairing.  The serialized schedule of the
same two exchanges pairs both correctly, so the defect is exactly the
missing mutual exclusion. -/
theorem send_to_mcp_interleaving_cross_pairs :
    twoExchanges.tasks.map ExchangeTask.reqId = [1, 2]
    ∧ send_to_mcp_ops = [MicroOp.write, MicroOp.read]
    ∧ replyOf twoExchanges [0, 1, 1, 0] 1 = some 1
    ∧ replyOf twoExchanges [0, 1, 1, 0] 0 = some 2
    ∧ replyOf twoExchanges [0, 0, 1, 1] 0 = some 1
    ∧ replyOf twoExchanges [0, 0, 1, 1] 1 = some 2 :=
  ⟨rfl, rfl, rfl, rfl, rfl, rfl⟩

end SseBridge



